import Mathlib

/-!
Verification of the clair-scanner core (main.go): the whitelist approval
engine (`vulnerabilitiesApproved`, `getImageVulnerabilities`), the
vulnerability fetch step (`getVulnerabilities`,
`fetchLayerVulnerabilities`) and the orchestrator (`start`).

Go maps `map[string]string` are embedded as association lists with a
first-match lookup; only key membership and the stored values matter to the
code under verification. Go's `error` results become `Except`; the one
possible nil-pointer dereference is made explicit as an outcome constructor.
-/

namespace ClairScanner

/-- A Go `map[string]string`, embedded as an association list. -/
abbrev StrMap := List (String × String)

/-- Go map lookup `v, ok := m[k]`: the first binding of the key, if any. -/
def mapLookup {α : Type} : List (String × α) → String → Option α
  | [], _ => none
  | (k, v) :: rest, key => if k = key then some v else mapLookup rest key

/-- `vulnerabilityInfo` of main.go: one finding occurrence.
(`nspace` stands for the Go field `namespace`, a reserved word here.) -/
structure vulnerabilityInfo where
  vulnerability : String
  nspace : String
  severity : String
deriving DecidableEq

/-- `vulnerabilitiesWhitelist` of main.go: the general whitelist and the
per-image whitelists (`Images : map[string]map[string]string`). -/
structure vulnerabilitiesWhitelist where
  GeneralWhitelist : StrMap
  Images : List (String × StrMap)
deriving DecidableEq

/-- `strings.Split(imageName, ":")[0]` of `getImageVulnerabilities`:
the image name truncated before its first colon. -/
def imageWithoutVersion (imageName : String) : String :=
  String.mk (imageName.data.takeWhile (fun c => c != ':'))

/-- `getImageVulnerabilities` of main.go: the per-image whitelist entry for
the image's key. A missing entry leaves the Go map nil, which behaves as the
empty map for both `len` and lookup, so it is embedded as `[]`. -/
def getImageVulnerabilities (imageName : String)
    (whitelistImageVulnerabilities : List (String × StrMap)) : StrMap :=
  match mapLookup whitelistImageVulnerabilities (imageWithoutVersion imageName) with
  | some val => val
  | none => []

/-- The loop body of `vulnerabilitiesApproved` (main.go lines 115-125):
whether one finding name stays `vulnerable` after both whitelist checks. -/
def isVulnerable (generalWhitelist imageVulnerabilities : StrMap)
    (vulnerability : String) : Bool :=
  let vulnerable := true
  let vulnerable :=
    if (mapLookup generalWhitelist vulnerability).isSome then false else vulnerable
  let vulnerable :=
    if vulnerable && decide (0 < imageVulnerabilities.length) then
      if (mapLookup imageVulnerabilities vulnerability).isSome then false else vulnerable
    else vulnerable
  vulnerable

/-- `vulnerabilitiesApproved` of main.go: collect the names of the findings
that survive both whitelist checks; a non-empty collection is the rejection
(the Go function formats it into the returned `error`). -/
def vulnerabilitiesApproved (imageName : String)
    (vulnerabilities : List vulnerabilityInfo)
    (whitelist : vulnerabilitiesWhitelist) : Except (List String) Unit :=
  let imageVulnerabilities := getImageVulnerabilities imageName whitelist.Images
  let unapproved := vulnerabilities.foldl
    (fun unapproved v =>
      if isVulnerable whitelist.GeneralWhitelist imageVulnerabilities v.vulnerability
      then unapproved ++ [v.vulnerability]
      else unapproved) []
  if 0 < unapproved.length then Except.error unapproved else Except.ok ()

/-- The list of rejected identifiers a decision carries (empty on approval). -/
def rejectedList : Except (List String) Unit → List String
  | Except.error u => u
  | Except.ok _ => []

/-- Spec-side predicate (§4.4 step 2): a finding name is covered when it is a
key of the general whitelist or of the per-image whitelist entry for the
scanned image's key. Compared against the code's `isVulnerable` below. -/
def coveredByWhitelist (imageName : String) (wl : vulnerabilitiesWhitelist)
    (name : String) : Bool :=
  (mapLookup wl.GeneralWhitelist name).isSome ||
  (mapLookup (getImageVulnerabilities imageName wl.Images) name).isSome

/-- Spec-side list (§4.4 steps 3-4): the names of the non-covered finding
occurrences, in order, duplicates kept. -/
def unapprovedOf (imageName : String) (wl : vulnerabilitiesWhitelist)
    (findings : List vulnerabilityInfo) : List String :=
  (findings.filter
      (fun v => !(coveredByWhitelist imageName wl v.vulnerability))).map
    (fun v => v.vulnerability)

theorem mapLookup_ne_nil {α : Type} {m : List (String × α)} {k : String}
    (h : (mapLookup m k).isSome = true) : 0 < m.length := by
  cases m with
  | nil => simp [mapLookup] at h
  | cons p rest => simp

theorem isVulnerable_eq_not_covered (imageName : String)
    (wl : vulnerabilitiesWhitelist) (name : String) :
    isVulnerable wl.GeneralWhitelist (getImageVulnerabilities imageName wl.Images) name
      = !(coveredByWhitelist imageName wl name) := by
  unfold isVulnerable coveredByWhitelist
  cases hg : (mapLookup wl.GeneralWhitelist name).isSome with
  | true => simp [hg]
  | false =>
    cases hi : (mapLookup (getImageVulnerabilities imageName wl.Images) name).isSome with
    | true =>
      have hlen := mapLookup_ne_nil hi
      simp [hg, hi, hlen]
    | false => simp [hg, hi]

theorem unapproved_foldl (g m : StrMap) (l : List vulnerabilityInfo)
    (acc : List String) :
    l.foldl
        (fun unapproved v =>
          if isVulnerable g m v.vulnerability then unapproved ++ [v.vulnerability]
          else unapproved) acc
      = acc ++ (l.filter (fun v => isVulnerable g m v.vulnerability)).map
          (fun v => v.vulnerability) := by
  induction l generalizing acc with
  | nil => simp
  | cons v rest ih =>
    by_cases h : isVulnerable g m v.vulnerability = true
    · simp [h, ih]
    · simp only [Bool.not_eq_true] at h
      simp [h, ih]

theorem approved_eq (imageName : String) (l : List vulnerabilityInfo)
    (wl : vulnerabilitiesWhitelist) :
    vulnerabilitiesApproved imageName l wl
      = if 0 < (unapprovedOf imageName wl l).length
        then Except.error (unapprovedOf imageName wl l)
        else Except.ok () := by
  have hpred : (fun v : vulnerabilityInfo =>
      isVulnerable wl.GeneralWhitelist (getImageVulnerabilities imageName wl.Images)
        v.vulnerability)
      = fun v => !(coveredByWhitelist imageName wl v.vulnerability) := by
    funext v
    exact isVulnerable_eq_not_covered imageName wl v.vulnerability
  unfold vulnerabilitiesApproved unapprovedOf
  simp only [unapproved_foldl, hpred, List.nil_append]

theorem rejectedList_eq (imageName : String) (l : List vulnerabilityInfo)
    (wl : vulnerabilitiesWhitelist) :
    rejectedList (vulnerabilitiesApproved imageName l wl)
      = unapprovedOf imageName wl l := by
  rw [approved_eq]
  by_cases h : 0 < (unapprovedOf imageName wl l).length
  · simp [h, rejectedList]
  · have hz : (unapprovedOf imageName wl l).length = 0 := Nat.eq_zero_of_not_pos h
    have hnil : unapprovedOf imageName wl l = [] := List.eq_nil_of_length_eq_zero hz
    simp [h, rejectedList, hnil]

theorem approved_iff (imageName : String) (l : List vulnerabilityInfo)
    (wl : vulnerabilitiesWhitelist) :
    vulnerabilitiesApproved imageName l wl = Except.ok ()
      ↔ unapprovedOf imageName wl l = [] := by
  rw [approved_eq]
  by_cases h : 0 < (unapprovedOf imageName wl l).length
  · simp only [h, if_true]
    constructor
    · intro hc
      exact absurd hc (by simp)
    · intro hnil
      rw [hnil] at h
      simp at h
  · have hz : (unapprovedOf imageName wl l).length = 0 := Nat.eq_zero_of_not_pos h
    have hnil : unapprovedOf imageName wl l = [] := List.eq_nil_of_length_eq_zero hz
    simp [h, hnil]

/-- C1: the decision is `rejected` iff some finding in the list is covered by
neither the general whitelist nor the per-image whitelist for the scanned
image's key; the rejected list is then exactly the name of every such
non-covered occurrence in order (duplicates kept); and the empty findings
list is always approved. -/
theorem decide_rejected_iff_uncovered (imageName : String)
    (wl : vulnerabilitiesWhitelist) (findings : List vulnerabilityInfo) :
    ((∃ u, vulnerabilitiesApproved imageName findings wl = Except.error u)
        ↔ ∃ f ∈ findings, coveredByWhitelist imageName wl f.vulnerability = false) ∧
    rejectedList (vulnerabilitiesApproved imageName findings wl)
      = (findings.filter
            (fun v => !(coveredByWhitelist imageName wl v.vulnerability))).map
          (fun v => v.vulnerability) ∧
    vulnerabilitiesApproved imageName [] wl = Except.ok () := by
  refine ⟨?_, ?_, ?_⟩
  · constructor
    · rintro ⟨u, hu⟩
      by_contra hno
      push_neg at hno
      have hnil : unapprovedOf imageName wl findings = [] := by
        unfold unapprovedOf
        have : findings.filter
            (fun v => !(coveredByWhitelist imageName wl v.vulnerability)) = [] := by
          rw [List.filter_eq_nil_iff]
          intro a ha
          simp [hno a ha]
        rw [this]
        rfl
      have := (approved_iff imageName findings wl).mpr hnil
      rw [this] at hu
      exact absurd hu (by simp)
    · rintro ⟨f, hf, hcov⟩
      rcases hres : vulnerabilitiesApproved imageName findings wl with u | u
      · exact ⟨u, rfl⟩
      · have hnil := (approved_iff imageName findings wl).mp (by cases u; exact hres)
        unfold unapprovedOf at hnil
        rcases List.map_eq_nil_iff.mp hnil with hfil
        have := List.filter_eq_nil_iff.mp hfil f hf
        simp [hcov] at this
  · rw [rejectedList_eq]
    rfl
  · rfl

/-- C2: a finding whose name is a key of the general whitelist is never in
the rejected list, whatever its severity, namespace or the image name. -/
theorem general_whitelisted_never_rejected (imageName : String)
    (wl : vulnerabilitiesWhitelist) (findings : List vulnerabilityInfo)
    (f : vulnerabilityInfo) (_hf : f ∈ findings)
    (hkey : (mapLookup wl.GeneralWhitelist f.vulnerability).isSome = true) :
    f.vulnerability ∉ rejectedList (vulnerabilitiesApproved imageName findings wl) := by
  rw [rejectedList_eq]
  intro hmem
  unfold unapprovedOf at hmem
  rcases List.mem_map.mp hmem with ⟨g, hg, hgname⟩
  rcases List.mem_filter.mp hg with ⟨-, hcov⟩
  rw [hgname] at hcov
  simp [coveredByWhitelist, hkey] at hcov

/-- C2 witness: a concrete generally-whitelisted finding is not rejected. -/
theorem general_whitelisted_never_rejected_witness :
    "CVE-2020-1" ∉ rejectedList (vulnerabilitiesApproved "myapp:1.0"
      [⟨"CVE-2020-1", "os", "High"⟩] ⟨[("CVE-2020-1", "ok")], []⟩) :=
  general_whitelisted_never_rejected "myapp:1.0" ⟨[("CVE-2020-1", "ok")], []⟩
    [⟨"CVE-2020-1", "os", "High"⟩] ⟨"CVE-2020-1", "os", "High"⟩
    (List.Mem.head _) (by decide)

/-- C3: a finding whose name is a key of the per-image whitelist entry looked
up under the image name truncated before its first colon is never in the
rejected list. -/
theorem image_whitelisted_never_rejected (imageName : String)
    (wl : vulnerabilitiesWhitelist) (findings : List vulnerabilityInfo)
    (f : vulnerabilityInfo) (m : StrMap) (_hf : f ∈ findings)
    (hm : mapLookup wl.Images (imageWithoutVersion imageName) = some m)
    (hkey : (mapLookup m f.vulnerability).isSome = true) :
    f.vulnerability ∉ rejectedList (vulnerabilitiesApproved imageName findings wl) := by
  rw [rejectedList_eq]
  intro hmem
  unfold unapprovedOf at hmem
  rcases List.mem_map.mp hmem with ⟨g, hg, hgname⟩
  rcases List.mem_filter.mp hg with ⟨-, hcov⟩
  rw [hgname] at hcov
  have himg : getImageVulnerabilities imageName wl.Images = m := by
    unfold getImageVulnerabilities
    rw [hm]
  simp [coveredByWhitelist, himg, hkey] at hcov

/-- C3 witness: a concrete per-image-whitelisted finding (image given with a
tag) is not rejected. -/
theorem image_whitelisted_never_rejected_witness :
    "CVE-2020-1" ∉ rejectedList (vulnerabilitiesApproved "myapp:1.0"
      [⟨"CVE-2020-1", "os", "High"⟩] ⟨[], [("myapp", [("CVE-2020-1", "ok")])]⟩) :=
  image_whitelisted_never_rejected "myapp:1.0"
    ⟨[], [("myapp", [("CVE-2020-1", "ok")])]⟩
    [⟨"CVE-2020-1", "os", "High"⟩] ⟨"CVE-2020-1", "os", "High"⟩
    [("CVE-2020-1", "ok")] (List.Mem.head _) (by decide) (by decide)

/-- C8: per-image whitelist entries under keys other than the scanned image's
key are irrelevant — two whitelists agreeing on the general mapping and on
the per-image entry for the image's key yield the same decision. -/
theorem perImage_isolation (imageName : String)
    (findings : List vulnerabilityInfo) (wl1 wl2 : vulnerabilitiesWhitelist)
    (hg : wl1.GeneralWhitelist = wl2.GeneralWhitelist)
    (hi : mapLookup wl1.Images (imageWithoutVersion imageName)
        = mapLookup wl2.Images (imageWithoutVersion imageName)) :
    vulnerabilitiesApproved imageName findings wl1
      = vulnerabilitiesApproved imageName findings wl2 := by
  have him : getImageVulnerabilities imageName wl1.Images
      = getImageVulnerabilities imageName wl2.Images := by
    unfold getImageVulnerabilities
    rw [hi]
  unfold vulnerabilitiesApproved
  rw [hg, him]

/-- C8 witness: an entry under the unrelated key "other" does not change the
decision for image "myapp:1.0". -/
theorem perImage_isolation_witness :
    vulnerabilitiesApproved "myapp:1.0" [⟨"CVE-2020-9", "os", "High"⟩]
        ⟨[("CVE-2020-9", "x")], [("other", [("CVE-2020-7", "y")])]⟩
      = vulnerabilitiesApproved "myapp:1.0" [⟨"CVE-2020-9", "os", "High"⟩]
        ⟨[("CVE-2020-9", "x")], []⟩ :=
  perImage_isolation "myapp:1.0" [⟨"CVE-2020-9", "os", "High"⟩]
    ⟨[("CVE-2020-9", "x")], [("other", [("CVE-2020-7", "y")])]⟩
    ⟨[("CVE-2020-9", "x")], []⟩ (by decide) (by decide)

/-- C9: the decision is order-insensitive — permuting the findings list
preserves the approved/rejected outcome, and the rejected lists are
permutations of each other (each finding's status depends on the finding
alone, so no occurrence changes status). -/
theorem approval_order_insensitive (imageName : String)
    (wl : vulnerabilitiesWhitelist) (l l2 : List vulnerabilityInfo)
    (hp : l.Perm l2) :
    ((vulnerabilitiesApproved imageName l wl = Except.ok ())
        ↔ (vulnerabilitiesApproved imageName l2 wl = Except.ok ())) ∧
    (rejectedList (vulnerabilitiesApproved imageName l wl)).Perm
      (rejectedList (vulnerabilitiesApproved imageName l2 wl)) := by
  have hperm : (unapprovedOf imageName wl l).Perm (unapprovedOf imageName wl l2) :=
    (hp.filter _).map _
  constructor
  · rw [approved_iff, approved_iff]
    constructor
    · intro h
      rw [h] at hperm
      exact (hperm.symm).eq_nil
    · intro h
      rw [h] at hperm
      exact hperm.eq_nil
  · rw [rejectedList_eq, rejectedList_eq]
    exact hperm

/-- C9 witness: swapping two concrete non-whitelisted findings preserves the
outcome and permutes the rejected list. -/
theorem approval_order_insensitive_witness :
    ((vulnerabilitiesApproved "myapp:1.0"
          [⟨"CVE-2020-1", "os", "High"⟩, ⟨"CVE-2020-2", "os", "Low"⟩] ⟨[], []⟩
        = Except.ok ())
      ↔ (vulnerabilitiesApproved "myapp:1.0"
          [⟨"CVE-2020-2", "os", "Low"⟩, ⟨"CVE-2020-1", "os", "High"⟩] ⟨[], []⟩
        = Except.ok ())) ∧
    (rejectedList (vulnerabilitiesApproved "myapp:1.0"
        [⟨"CVE-2020-1", "os", "High"⟩, ⟨"CVE-2020-2", "os", "Low"⟩] ⟨[], []⟩)).Perm
      (rejectedList (vulnerabilitiesApproved "myapp:1.0"
        [⟨"CVE-2020-2", "os", "Low"⟩, ⟨"CVE-2020-1", "os", "High"⟩] ⟨[], []⟩)) :=
  approval_order_insensitive "myapp:1.0" ⟨[], []⟩
    [⟨"CVE-2020-1", "os", "High"⟩, ⟨"CVE-2020-2", "os", "Low"⟩]
    [⟨"CVE-2020-2", "os", "Low"⟩, ⟨"CVE-2020-1", "os", "High"⟩]
    (List.Perm.swap _ _ _)

/-- `v1.Vulnerability`: the fields main.go reads. -/
structure Vulnerability where
  Name : String
  NamespaceName : String
  Severity : String
deriving DecidableEq

/-- `v1.Feature`: the field main.go reads. -/
structure Feature where
  Vulnerabilities : List Vulnerability
deriving DecidableEq

/-- `v1.Layer`: the field main.go reads. -/
structure Layer where
  Features : List Feature
deriving DecidableEq

/-- `v1.Error` of the analyzer's response envelope. -/
structure ApiError where
  Message : String
deriving DecidableEq

/-- `v1.LayerEnvelope`: the analyzer's response body, an optional error
object and an optional layer object (both pointers in Go). -/
structure LayerEnvelope where
  Error : Option ApiError
  Layer : Option Layer
deriving DecidableEq

/-- An analyzer HTTP response as `fetchLayerVulnerabilities` inspects it:
the status code, the raw body text, and what `json.Decode` yields on that
body (the decoder is external; its result is carried with the response). -/
structure httpResponse where
  StatusCode : Nat
  Body : String
  decoded : Except String LayerEnvelope

/-- Outcome of `fetchLayerVulnerabilities`: a layer, a Go `error`, or the
nil-pointer dereference of `*apiResponse.Layer` (a runtime panic). -/
inductive FetchOutcome where
  | ok (layer : Layer)
  | err (msg : String)
  | nilDeref
deriving DecidableEq

/-- `fetchLayerVulnerabilities` of main.go, from the result of `http.Get`
on: a transport error is returned as-is; a non-200 status becomes an error
carrying the status code and body; a decode failure is returned; a decoded
error envelope propagates exactly the analyzer's message; otherwise the
envelope's layer pointer is dereferenced. -/
def fetchLayerVulnerabilities (getResult : Except String httpResponse) :
    FetchOutcome :=
  match getResult with
  | Except.error e => FetchOutcome.err e
  | Except.ok response =>
    if response.StatusCode ≠ 200 then
      FetchOutcome.err
        ("Got response " ++ toString response.StatusCode
          ++ " with message " ++ response.Body)
    else
      match response.decoded with
      | Except.error e => FetchOutcome.err e
      | Except.ok apiResponse =>
        match apiResponse.Error with
        | some e => FetchOutcome.err e.Message
        | none =>
          match apiResponse.Layer with
          | some layer => FetchOutcome.ok layer
          | none => FetchOutcome.nilDeref

/-- `getVulnerabilities` of main.go, over an oracle `fetchLayer` standing
for `fetchLayerVulnerabilities` at a given analyzer URL. Besides the Go
result, the embedding records which layer IDs were queried (second
component) and whether the unsupported-image NOTE was printed (third
component). The Go code indexes `layerIds[len(layerIds)-1]`, defined only
for a non-empty sequence. -/
def getVulnerabilities (fetchLayer : String → Except String Layer)
    (layerIds : List String) (hne : layerIds ≠ []) :
    Except String (List vulnerabilityInfo) × List String × Bool :=
  let queriedLayer := layerIds.getLast hne
  match fetchLayer queriedLayer with
  | Except.error e => (Except.error e, [queriedLayer], false)
  | Except.ok rawVulnerabilities =>
    if rawVulnerabilities.Features.length = 0 then
      (Except.ok [], [queriedLayer], true)
    else
      (Except.ok (rawVulnerabilities.Features.foldl
        (fun vulnerabilities feature =>
          if 0 < feature.Vulnerabilities.length then
            feature.Vulnerabilities.foldl
              (fun vulnerabilities v =>
                vulnerabilities ++ [⟨v.Name, v.NamespaceName, v.Severity⟩])
              vulnerabilities
          else vulnerabilities) []), [queriedLayer], false)

/-- C5: for a non-empty layer ID sequence, `getVulnerabilities` queries the
analyzer for exactly one layer — the last of the sequence — whatever the
oracle answers. -/
theorem queries_last_layer_only (fetchLayer : String → Except String Layer)
    (layerIds : List String) (hne : layerIds ≠ []) :
    (getVulnerabilities fetchLayer layerIds hne).2.1
      = [layerIds.getLast hne] := by
  rcases hfl : fetchLayer (layerIds.getLast hne) with e | raw
  · simp [getVulnerabilities, hfl]
  · by_cases h : raw.Features = []
    · simp [getVulnerabilities, hfl, h]
    · simp [getVulnerabilities, hfl, h]

/-- C5 witness: with two layers, only "layer2" is queried. -/
theorem queries_last_layer_only_witness :
    (getVulnerabilities (fun _ => Except.ok ⟨[]⟩) ["layer1", "layer2"]
        (List.cons_ne_nil _ _)).2.1 = ["layer2"] := by
  have h := queries_last_layer_only (fun _ => Except.ok ⟨[]⟩)
    ["layer1", "layer2"] (List.cons_ne_nil _ _)
  simpa using h

/-- C6: when the analyzer's answer for the queried (last) layer has zero
features, `getVulnerabilities` returns an empty findings list without an
error and surfaces the warning, and the approval decision on that empty
list is approved. -/
theorem zero_features_warns_and_approves
    (fetchLayer : String → Except String Layer) (layerIds : List String)
    (hne : layerIds ≠ []) (layer : Layer) (imageName : String)
    (wl : vulnerabilitiesWhitelist)
    (hfetch : fetchLayer (layerIds.getLast hne) = Except.ok layer)
    (hfeat : layer.Features = []) :
    (getVulnerabilities fetchLayer layerIds hne).1 = Except.ok [] ∧
    (getVulnerabilities fetchLayer layerIds hne).2.2 = true ∧
    vulnerabilitiesApproved imageName [] wl = Except.ok () := by
  refine ⟨?_, ?_, rfl⟩ <;> simp [getVulnerabilities, hfetch, hfeat]

/-- C6 witness: a concrete zero-feature answer yields an empty ok list, the
warning, and approval. -/
theorem zero_features_warns_and_approves_witness :
    (getVulnerabilities (fun _ => Except.ok ⟨[]⟩) ["layer1"]
        (List.cons_ne_nil _ _)).1 = Except.ok [] ∧
    (getVulnerabilities (fun _ => Except.ok ⟨[]⟩) ["layer1"]
        (List.cons_ne_nil _ _)).2.2 = true ∧
    vulnerabilitiesApproved "myapp:1.0" [] ⟨[], []⟩ = Except.ok () :=
  zero_features_warns_and_approves (fun _ => Except.ok ⟨[]⟩) ["layer1"]
    (List.cons_ne_nil _ _) ⟨[]⟩ "myapp:1.0" ⟨[], []⟩ rfl rfl

/-- C7: `fetchLayerVulnerabilities` yields an error (never a layer) on a
non-200 status — with a message carrying the status code and body — and on
a decoded error envelope — with exactly the analyzer's message; a layer
comes back only from a 200 response whose envelope has no error object. -/
theorem fetch_error_propagation (resp : httpResponse) :
    (resp.StatusCode ≠ 200 →
      fetchLayerVulnerabilities (Except.ok resp)
        = FetchOutcome.err ("Got response " ++ toString resp.StatusCode
            ++ " with message " ++ resp.Body)) ∧
    (∀ env e, resp.StatusCode = 200 → resp.decoded = Except.ok env →
      env.Error = some e →
      fetchLayerVulnerabilities (Except.ok resp)
        = FetchOutcome.err e.Message) ∧
    (∀ layer, fetchLayerVulnerabilities (Except.ok resp) = FetchOutcome.ok layer →
      resp.StatusCode = 200 ∧
        ∃ env, resp.decoded = Except.ok env ∧ env.Error = none) := by
  refine ⟨?_, ?_, ?_⟩
  · intro h
    simp [fetchLayerVulnerabilities, h]
  · intro env e h hdec herr
    simp [fetchLayerVulnerabilities, h, hdec, herr]
  · intro layer hok
    by_cases h : resp.StatusCode = 200
    · rcases hdec : resp.decoded with e | env
      · simp [fetchLayerVulnerabilities, h, hdec] at hok
      · rcases herr : env.Error with _ | e
        · exact ⟨h, env, hdec ▸ rfl, herr⟩
        · simp [fetchLayerVulnerabilities, h, hdec, herr] at hok
    · simp [fetchLayerVulnerabilities, h] at hok

/-- C10: when a 200 response decodes into an envelope with neither an error
object nor a layer object, `fetchLayerVulnerabilities` dereferences the nil
layer pointer; and it returns a layer without error only when the envelope
actually holds that layer object. -/
theorem fetch_nil_layer_deref :
    (∀ resp env, resp.StatusCode = 200 → resp.decoded = Except.ok env →
      env.Error = none → env.Layer = none →
      fetchLayerVulnerabilities (Except.ok resp) = FetchOutcome.nilDeref) ∧
    (∀ getResult layer,
      fetchLayerVulnerabilities getResult = FetchOutcome.ok layer →
      ∃ resp env, getResult = Except.ok resp ∧
        resp.decoded = Except.ok env ∧ env.Layer = some layer) := by
  constructor
  · intro resp env hstatus hdec herr hlayer
    simp [fetchLayerVulnerabilities, hstatus, hdec, herr, hlayer]
  · intro getResult layer hok
    rcases getResult with e | resp
    · simp [fetchLayerVulnerabilities] at hok
    · by_cases h : resp.StatusCode = 200
      · rcases hdec : resp.decoded with e | env
        · simp [fetchLayerVulnerabilities, h, hdec] at hok
        · rcases herr : env.Error with _ | e
          · rcases hlay : env.Layer with _ | l
            · simp [fetchLayerVulnerabilities, h, hdec, herr, hlay] at hok
            · simp [fetchLayerVulnerabilities, h, hdec, herr, hlay] at hok
              exact ⟨resp, env, rfl, hdec, by rw [hlay, hok]⟩
          · simp [fetchLayerVulnerabilities, h, hdec, herr] at hok
      · simp [fetchLayerVulnerabilities, h] at hok

/-- The externally visible events of one run of `start`. -/
inductive RunEvent where
  | destroyWorkspace
  | serverShutdown
  | fatalExit (msg : String)
  | normalReturn
deriving DecidableEq

/-- The outcomes of the external steps of one run of `start`.
`saveOk` and `submitOk` abstract `saveDockerImage` and `analyzeLayers`.
Modelled from the spec: those two functions are not among the sources here;
per the design, an image-save failure and a submission failure are fatal and
abort the run immediately. `interrupted` is whether an interrupt signal
arrives during the run, making `listenForSignal` invoke the `log.Fatalf`
callback of main.go line 90. -/
structure RunEnv where
  interrupted : Bool
  saveOk : Bool
  submitOk : Bool
  fetchResult : Except String (List vulnerabilityInfo)
  imageName : String
  whitelist : vulnerabilitiesWhitelist

/-- `start` of main.go as the trace of events of one run. The function
registers `defer os.RemoveAll(tmpPath)` and `defer server.Shutdown(nil)`:
in Go, deferred calls run (in reverse order) when the function returns —
but `log.Fatalf` calls `os.Exit`, which terminates the process WITHOUT
running any deferred call, on whichever goroutine it happens. So every
fatal path (the signal callback, a failing external step, `getVulnerabilities`
returning an error, `vulnerabilitiesApproved` rejecting) ends the trace at
the `fatalExit` alone, and only a normal return runs the two deferred
calls. -/
def start (env : RunEnv) : List RunEvent :=
  if env.interrupted then
    [RunEvent.fatalExit "Application interupted"]
  else if env.saveOk = false then
    [RunEvent.fatalExit "saveDockerImage failed"]
  else if env.submitOk = false then
    [RunEvent.fatalExit "analyzeLayers failed"]
  else
    match env.fetchResult with
    | Except.error e => [RunEvent.fatalExit ("Analyzing failed: " ++ e)]
    | Except.ok vulnerabilities =>
      match vulnerabilitiesApproved env.imageName vulnerabilities env.whitelist with
      | Except.error _ =>
        [RunEvent.fatalExit "Image contains unapproved vulnerabilities"]
      | Except.ok _ =>
        [RunEvent.serverShutdown, RunEvent.destroyWorkspace, RunEvent.normalReturn]

/-- How many times a run destroyed the workspace temporary directory. -/
def destroyCount (trace : List RunEvent) : Nat :=
  (trace.filter (fun e => e = RunEvent.destroyWorkspace)).length

/-- C4 counterexample: a run in which `getVulnerabilities` fails (the
analyzer is unreachable) is a fatal-error exit path on which the workspace
is destroyed zero times, not exactly once. -/
theorem workspace_destroy_counterexample :
    start ⟨false, true, true, Except.error "connection refused", "myapp:1.0", ⟨[], []⟩⟩
        = [RunEvent.fatalExit "Analyzing failed: connection refused"] ∧
    destroyCount
        (start ⟨false, true, true, Except.error "connection refused", "myapp:1.0", ⟨[], []⟩⟩)
      ≠ 1 := by
  constructor
  · rfl
  · decide

/-- C4 (amended): the workspace temporary directory is destroyed exactly
once when `start` returns normally, and zero times on every other exit path
— fatal errors and signal interruption go through `log.Fatalf`, i.e.
`os.Exit`, which skips the deferred `os.RemoveAll`. -/
theorem workspace_destroyed_only_on_normal_return (env : RunEnv) :
    destroyCount (start env)
      = if RunEvent.normalReturn ∈ start env then 1 else 0 := by
  unfold start
  by_cases h1 : env.interrupted
  · simp [h1, destroyCount]
  · by_cases h2 : env.saveOk = false
    · simp [h1, h2, destroyCount]
    · by_cases h3 : env.submitOk = false
      · simp [h1, h2, h3, destroyCount]
      · rcases hf : env.fetchResult with e | vulns
        · simp [h1, h2, h3, hf, destroyCount]
        · rcases ha : vulnerabilitiesApproved env.imageName vulns env.whitelist with u | u
          · simp [h1, h2, h3, hf, ha, destroyCount]
          · simp [h1, h2, h3, hf, ha, destroyCount]

end ClairScanner
